import Mathlib

/-!
Shallow embedding of the persistent key-value container library
(`blockdevice/utils/__init__.py`): the abstract `Object` mapping wrapper,
`DiskObject` (file-backed), `CompressedDiskObject` (zstd-wrapped file
backend) and the `NetworkObject` wire protocol (framing, buffered line
reader, broadcast loop).

State values are modelled as association lists `List (Nat × Nat)` with
Python-dict semantics (in-place replacement keeps insertion order, new
keys append).  Byte strings are `List Nat`.  Python exceptions escaping a
function are modelled with `Except PyExc`; a `try`/`except` clause is an
explicit match on the raised exception.  The external libraries the code
calls (`pickle`, `base64`, `zstd`) are modelled as executable functions
faithful to their documented contracts: `pickle` is a concrete injective
encoder/decoder pair, `base64` is RFC 4648 standard encoding over byte
lists, and `zstd` frames the payload behind a magic prefix whose absence
makes decompression fail with a zstd error.
-/

/-- Python exceptions relevant to this module.  `osError` stands for the
socket-level errors a send can raise; `zstdError` is the error raised by
`zstd.decompress` on corrupt input (note that it is distinct from every
member of the tuple caught by `DiskObject.load`). -/
inductive PyExc where
  | fileNotFound
  | eofError
  | unpicklingError
  | zstdError
  | keyError
  | osError
deriving DecidableEq, Repr

/-- A state value: association list with Python-dict semantics. -/
abbrev Dict := List (Nat × Nat)

/-- A byte string. -/
abbrev Bytes := List Nat

/-- Model of `d[key]` lookup: first (unique) binding of the key. -/
def dictGet : Dict → Nat → Option Nat
  | [], _ => none
  | kv :: rest, k => if kv.1 == k then some kv.2 else dictGet rest k

/-- Model of `key in d`. -/
def dictContains (d : Dict) (k : Nat) : Bool :=
  (dictGet d k).isSome

/-- Model of `d[key] = value`: replace in place when present, append when absent. -/
def dictSet : Dict → Nat → Nat → Dict
  | [], k, v => [(k, v)]
  | kv :: rest, k, v => if kv.1 == k then (k, v) :: rest else kv :: dictSet rest k v

/-- Model of `del d[key]` once the key is known present: drop its binding. -/
def dictDel : Dict → Nat → Dict
  | [], _ => []
  | kv :: rest, k => if kv.1 == k then rest else kv :: dictDel rest k

/-- Model of `d.update(other)`: set every binding of `other` in order. -/
def dictUpdate (d : Dict) (other : Dict) : Dict :=
  other.foldl (fun acc kv => dictSet acc kv.1 kv.2) d

/-- Model of `list(d.keys())`. -/
def dictKeys (d : Dict) : List Nat :=
  d.map (fun kv => kv.1)

/-! ## The pickle model

`pickle.dumps` is modelled as a concrete injective byte encoding of the
association list: every natural number is written in unary (`1` bytes)
closed by a `0` byte, entries are the concatenation of the key and value
encodings.  `pickle.loads` is its parser; on malformed input it raises
`EOFError` (truncated) or `UnpicklingError` (bad byte), the failure modes
named in `DiskObject.load`'s except clause. -/

/-- Unary encoding of one natural number. -/
def encNat (n : Nat) : Bytes :=
  List.replicate n 1 ++ [0]

/-- Model of `pickle.dumps`: concatenated entry encodings. -/
def pickleDumps (d : Dict) : Bytes :=
  d.flatMap (fun kv => encNat kv.1 ++ encNat kv.2)

/-- Parse one unary-encoded natural number, returning the remainder. -/
def parseNat : Bytes → Except PyExc (Nat × Bytes)
  | [] => .error .eofError
  | 0 :: rest => .ok (0, rest)
  | 1 :: rest =>
    match parseNat rest with
    | .ok (n, r) => .ok (n + 1, r)
    | .error e => .error e
  | _ :: _ => .error .unpicklingError

/-- Parse a whole entry list (fuel bounds the number of entries). -/
def parseEntries : Nat → Bytes → Except PyExc Dict
  | _, [] => .ok []
  | 0, _ :: _ => .error .unpicklingError
  | fuel + 1, b :: bs =>
    match parseNat (b :: bs) with
    | .error e => .error e
    | .ok (k, r1) =>
      match parseNat r1 with
      | .error e => .error e
      | .ok (v, r2) =>
        match parseEntries fuel r2 with
        | .error e => .error e
        | .ok rest => .ok ((k, v) :: rest)

/-- Model of `pickle.loads`. -/
def pickleLoads (bs : Bytes) : Except PyExc Dict :=
  parseEntries bs.length bs

/-! ## The container (`Object`) and its file backend (`DiskObject`)

A `DObj` carries the in-memory state (`data`), the backing file contents
(`file`, `none` when the file does not exist) and a counter of persist
(`save`) calls, so that the persist-exactly-once contract is observable.
Operations that may raise return the exception alongside the object so
that the state on failure stays observable. -/

structure DObj where
  data : Dict
  file : Option Bytes
  saves : Nat
deriving DecidableEq, Repr

/-- Model of `DiskObject.save`: overwrite the file with the serialized state. -/
def objSave (o : DObj) : DObj :=
  { data := o.data, file := some (pickleDumps o.data), saves := o.saves + 1 }

/-- Model of `Object.__setitem__`: set then save. -/
def objSetItem (o : DObj) (k v : Nat) : DObj :=
  objSave { o with data := dictSet o.data k v }

/-- Model of `Object.__delitem__`: `del self._data[key]` (KeyError when absent,
before any save) then save. -/
def objDelItem (o : DObj) (k : Nat) : Except PyExc Unit × DObj :=
  if dictContains o.data k then
    (.ok (), objSave { o with data := dictDel o.data k })
  else
    (.error .keyError, o)

/-- Model of `Object.pop`: `self._data.pop(key, *args)` then save; with no default
an absent key raises KeyError before any save. -/
def objPop (o : DObj) (k : Nat) (dflt : Option Nat) : Except PyExc Nat × DObj :=
  match dictGet o.data k, dflt with
  | some v, _ => (.ok v, objSave { o with data := dictDel o.data k })
  | none, some v => (.ok v, objSave o)
  | none, none => (.error .keyError, o)

/-- Model of `Object.clear`: empty then save. -/
def objClear (o : DObj) : DObj :=
  objSave { o with data := [] }

/-- Model of `Object.update`: merge the whole mapping, then one save. -/
def objUpdate (o : DObj) (other : Dict) : DObj :=
  objSave { o with data := dictUpdate o.data other }

/-- Model of `Object.get`: read-only, returns the looked-up value and the
(unchanged) object. -/
def objGetOp (o : DObj) (k : Nat) : Option Nat × DObj :=
  (dictGet o.data k, o)

/-- Model of `Object.__contains__`: read-only. -/
def objContainsOp (o : DObj) (k : Nat) : Bool × DObj :=
  (dictContains o.data k, o)

/-- Model of `Object.__len__`: read-only. -/
def objLenOp (o : DObj) : Nat × DObj :=
  (o.data.length, o)

/-- Model of `Object.__iter__` materialised as the key sequence: read-only. -/
def objIterOp (o : DObj) : List Nat × DObj :=
  (dictKeys o.data, o)

/-- The exception tuple of `DiskObject.load`:
`except (FileNotFoundError, EOFError, pickle.UnpicklingError)`. -/
def caughtByLoad : PyExc → Bool
  | .fileNotFound => true
  | .eofError => true
  | .unpicklingError => true
  | _ => false

/-- Model of `DiskObject.load`: open the path (FileNotFoundError when missing),
deserialize the bytes; exceptions in the caught tuple reset the state to
the empty mapping, any other exception escapes. -/
def tryLoad (deser : Bytes → Except PyExc Dict) (file : Option Bytes) :
    Except PyExc Dict :=
  match (match file with
         | none => Except.error PyExc.fileNotFound
         | some bs => deser bs) with
  | .ok d => .ok d
  | .error e => if caughtByLoad e then .ok [] else .error e

/-- Model of `DiskObject.__init__`: store the default (or `{}`), then `load()`
replaces the state from the file unconditionally. -/
def diskObjectNew (file : Option Bytes) (dflt : Option Dict) :
    Except PyExc DObj :=
  let initial : Dict := dflt.getD []
  match tryLoad pickleLoads file with
  | .ok d => .ok { data := d, file := file, saves := 0 }
  | .error e =>
    -- the exception escapes the constructor; `initial` was never visible
    let _ := initial
    .error e

/-! ## zstd model (`CompressedDiskObject`)

`zstd.compress(data, level)` produces a frame recognised by its magic
prefix; `zstd.decompress` strips it and raises `zstd.Error` when the
input is not a valid frame.  The compression level (supported range
1..22, fixed at construction) affects effort, not the round-trip. -/

/-- The zstd frame magic bytes. -/
def zstdMagic : Bytes := [40, 181, 47, 253]

/-- Model of `zstd.compress(data, level)`. -/
def zstdCompress (data : Bytes) (lvl : Nat) : Bytes :=
  let _ := lvl
  zstdMagic ++ data

/-- Model of `zstd.decompress`: fails with `zstd.Error` unless the frame
magic is present. -/
def zstdDecompress (data : Bytes) : Except PyExc Bytes :=
  if data.take 4 = zstdMagic then .ok (data.drop 4) else .error .zstdError

/-- Model of `CompressedDiskObject._serialize`: pickle then compress. -/
def compressedSerialize (d : Dict) (lvl : Nat) : Bytes :=
  zstdCompress (pickleDumps d) lvl

/-- Model of `CompressedDiskObject._deserialize`: decompress then unpickle. -/
def compressedDeserialize (bs : Bytes) : Except PyExc Dict :=
  match zstdDecompress bs with
  | .error e => .error e
  | .ok raw => pickleLoads raw

/-- Model of `CompressedDiskObject.__init__` with a missing-or-present file:
same shape as `DiskObject.__init__` but with the compressed codec. -/
def compressedObjectNew (file : Option Bytes) (dflt : Option Dict) :
    Except PyExc DObj :=
  let initial : Dict := dflt.getD []
  match tryLoad compressedDeserialize file with
  | .ok d => .ok { data := d, file := file, saves := 0 }
  | .error e =>
    let _ := initial
    .error e

/-! ## base64 model (RFC 4648 standard alphabet over byte lists) -/

/-- Alphabet: sextet index to ASCII code. -/
def b64Char (i : Nat) : Nat :=
  if i < 26 then 65 + i
  else if i < 52 then 97 + (i - 26)
  else if i < 62 then 48 + (i - 52)
  else if i = 62 then 43
  else 47

/-- ASCII code back to sextet index (garbage on non-alphabet input, as
`base64.b64decode` without validation). -/
def b64CharDec (c : Nat) : Nat :=
  if 65 ≤ c ∧ c ≤ 90 then c - 65
  else if 97 ≤ c ∧ c ≤ 122 then c - 97 + 26
  else if 48 ≤ c ∧ c ≤ 57 then c - 48 + 52
  else if c = 43 then 62
  else if c = 47 then 63
  else 0

/-- Model of `base64.b64encode`: 3-byte groups to 4 characters, with
`=` (61) padding on the final partial group. -/
def b64Encode : Bytes → Bytes
  | a :: b :: c :: rest =>
    b64Char (a / 4) :: b64Char (a % 4 * 16 + b / 16) ::
      b64Char (b % 16 * 4 + c / 64) :: b64Char (c % 64) :: b64Encode rest
  | [a, b] => [b64Char (a / 4), b64Char (a % 4 * 16 + b / 16), b64Char (b % 16 * 4), 61]
  | [a] => [b64Char (a / 4), b64Char (a % 4 * 16), 61, 61]
  | [] => []

/-- Model of `base64.b64decode`: 4-character groups back to bytes,
honouring `=` padding. -/
def b64Decode : Bytes → Bytes
  | c1 :: c2 :: c3 :: c4 :: rest =>
    if c3 = 61 then
      [b64CharDec c1 * 4 + b64CharDec c2 / 16]
    else if c4 = 61 then
      [b64CharDec c1 * 4 + b64CharDec c2 / 16,
       b64CharDec c2 % 16 * 16 + b64CharDec c3 / 4]
    else
      (b64CharDec c1 * 4 + b64CharDec c2 / 16) ::
        (b64CharDec c2 % 16 * 16 + b64CharDec c3 / 4) ::
        (b64CharDec c3 % 4 * 64 + b64CharDec c4) :: b64Decode rest
  | _ => []

/-! ## NetworkObject wire protocol -/

/-- The ASCII bytes of the marker string written before the payload. -/
def dataMarker : Bytes := [68, 65, 84, 65, 58]

/-- Model of `NetworkObject._send_data` message construction:
`b'DATA:' + base64.b64encode(pickle.dumps(data)) + b'\n'`. -/
def sendMessage (d : Dict) : Bytes :=
  dataMarker ++ b64Encode (pickleDumps d) ++ [10]

/-- One message-handling step of a listener loop: a line starting with
`DATA:` is stripped of the marker, base64-decoded and unpickled; a decode
failure (or a foreign line) is logged and discarded (`none`). -/
def decodeLine (line : Bytes) : Option Dict :=
  if line.take 5 = dataMarker then
    match pickleLoads (b64Decode (line.drop 5)) with
    | .ok d => some d
    | .error _ => none
  else none

/-- The `while b'\n' in buffer: line, buffer = buffer.split(b'\n', 1)`
loop: all complete (newline-terminated) lines, and the remaining buffer. -/
def splitLines : Bytes → List Bytes × Bytes
  | [] => ([], [])
  | b :: rest =>
    if b = 10 then
      ([] :: (splitLines rest).1, (splitLines rest).2)
    else
      match splitLines rest with
      | ([], r) => ([], b :: r)
      | (l :: ls, r) => ((b :: l) :: ls, r)

/-- One `recv` iteration of `_client_listener`/`_handle_client`: append
the chunk to the buffer, consume every complete line, record each
successfully decoded state. -/
def feedChunk (st : List Dict × Bytes) (chunk : Bytes) : List Dict × Bytes :=
  (st.1 ++ ((splitLines (st.2 ++ chunk)).1.filterMap decodeLine),
   (splitLines (st.2 ++ chunk)).2)

/-- A whole listener run over a sequence of reads, starting from the
empty buffer (`buffer = b""`). -/
def feedAll (chunks : List Bytes) : List Dict × Bytes :=
  chunks.foldl feedChunk ([], [])

/-! ## NetworkObject broadcast

Peers are socket identities (`Nat`).  `fails p` says whether `sendall`
to peer `p` raises.  `_send_data` wraps the send in a catch-all
`except Exception` that only prints, so it never raises to its caller;
`_broadcast_data` iterates a copy of the peer set, collects into
`dead_clients` every peer whose send raised, and removes those from the
set afterwards. -/

/-- Model of `sock.sendall(message)`: raises an OS error exactly when the peer is
failing. -/
def sendAll (fails : Nat → Bool) (p : Nat) : Except PyExc Unit :=
  if fails p then .error .osError else .ok ()

/-- Model of `NetworkObject._send_data`: the whole body sits inside
`try: ... except Exception as e: print(...)`, so every raised exception
is swallowed and the function returns normally. -/
def sendData (fails : Nat → Bool) (p : Nat) : Except PyExc Unit :=
  match sendAll fails p with
  | .ok u => .ok u
  | .error _ => .ok ()

/-- The `for client in self._clients.copy()` loop of `_broadcast_data`:
returns the peers a send was attempted to and the `dead_clients` set
(peers whose `_send_data` call raised). -/
def broadcastLoop (fails : Nat → Bool) (exclude : Option Nat) :
    List Nat → List Nat × List Nat
  | [] => ([], [])
  | c :: rest =>
    let t := broadcastLoop fails exclude rest
    if some c = exclude then t
    else
      match sendData fails c with
      | .ok _ => (c :: t.1, t.2)
      | .error _ => (c :: t.1, c :: t.2)

/-- Model of `NetworkObject._broadcast_data`: run the loop, then
`self._clients -= dead_clients`. -/
def broadcastData (clients : List Nat) (fails : Nat → Bool)
    (exclude : Option Nat) : List Nat :=
  clients.filter (fun c => !(broadcastLoop fails exclude clients).2.contains c)

/-! ## Operation sequences over a `DiskObject` (round-trip law) -/

/-- One mutating container operation. -/
inductive Op where
  | set (k v : Nat)
  | del (k : Nat)
  | update (m : Dict)
  | clear
  | pop (k : Nat) (dflt : Option Nat)
deriving Repr

/-- Apply one operation; a raised exception aborts the run. -/
def runOp (o : DObj) : Op → Except PyExc DObj
  | .set k v => .ok (objSetItem o k v)
  | .del k =>
    match objDelItem o k with
    | (.ok _, o2) => .ok o2
    | (.error e, _) => .error e
  | .update m => .ok (objUpdate o m)
  | .clear => .ok (objClear o)
  | .pop k dflt =>
    match objPop o k dflt with
    | (.ok _, o2) => .ok o2
    | (.error e, _) => .error e

/-- Apply a sequence of operations left to right. -/
def runOps (o : DObj) : List Op → Except PyExc DObj
  | [] => .ok o
  | op :: rest =>
    match runOp o op with
    | .ok o2 => runOps o2 rest
    | .error e => .error e

/-- Sample container used by concrete witnesses: one binding, no file yet,
no persist call made. -/
def sampleObj : DObj :=
  { data := [(1, 2)], file := none, saves := 0 }

/-! ## Helper lemmas -/

/-- Unary encodings unfold one `1` byte at a time. -/
theorem encNat_append (n : Nat) (r : Bytes) :
    encNat (n + 1) ++ r = 1 :: (encNat n ++ r) := by
  simp [encNat, List.replicate_succ]

theorem parseNat_encNat (n : Nat) (r : Bytes) :
    parseNat (encNat n ++ r) = .ok (n, r) := by
  induction n with
  | zero => simp [encNat, parseNat]
  | succ m ih => rw [encNat_append, parseNat, ih]

theorem parseEntries_pickleDumps (d : Dict) :
    ∀ fuel, d.length ≤ fuel → parseEntries fuel (pickleDumps d) = .ok d := by
  induction d with
  | nil => intro fuel _; simp [pickleDumps, parseEntries]
  | cons kv rest ih =>
    intro fuel hf
    obtain ⟨k, v⟩ := kv
    cases fuel with
    | zero => simp at hf
    | succ f =>
      have hd : pickleDumps ((k, v) :: rest) = encNat k ++ (encNat v ++ pickleDumps rest) := by
        simp [pickleDumps]
      obtain ⟨b, bs, hbs⟩ : ∃ b bs, encNat k ++ (encNat v ++ pickleDumps rest) = b :: bs := by
        cases k <;> simp [encNat, List.replicate_succ]
      rw [hd, hbs, parseEntries, ← hbs, parseNat_encNat]
      simp [parseNat_encNat, ih f (by simpa using hf)]

theorem length_le_pickleDumps_length (d : Dict) :
    d.length ≤ (pickleDumps d).length := by
  induction d with
  | nil => simp [pickleDumps]
  | cons kv rest ih =>
    simp only [pickleDumps, List.flatMap_cons, List.length_append, List.length_cons]
    simp only [pickleDumps] at ih
    have h1 : (encNat kv.1).length = kv.1 + 1 := by simp [encNat]
    have h2 : (encNat kv.2).length = kv.2 + 1 := by simp [encNat]
    omega

theorem pickleLoads_pickleDumps (d : Dict) :
    pickleLoads (pickleDumps d) = .ok d :=
  parseEntries_pickleDumps d (pickleDumps d).length (length_le_pickleDumps_length d)

theorem pickleDumps_bytes_lt (d : Dict) :
    ∀ x ∈ pickleDumps d, x < 256 := by
  intro x hx
  simp only [pickleDumps, List.mem_flatMap] at hx
  obtain ⟨kv, _, hmem⟩ := hx
  rcases List.mem_append.mp hmem with h | h <;>
    · simp only [encNat, List.mem_append, List.mem_replicate, List.mem_singleton] at h
      rcases h with ⟨_, rfl⟩ | rfl <;> omega

theorem b64CharDec_b64Char : ∀ i < 64, b64CharDec (b64Char i) = i := by decide

theorem b64Char_ne_61 (i : Nat) : b64Char i ≠ 61 := by
  simp only [b64Char]
  split <;> try omega
  split <;> try omega
  split <;> try omega
  split <;> omega

theorem b64Char_ne_10 (i : Nat) : b64Char i ≠ 10 := by
  simp only [b64Char]
  split <;> try omega
  split <;> try omega
  split <;> try omega
  split <;> omega

theorem b64Decode_b64Encode (bs : Bytes) (h : ∀ x ∈ bs, x < 256) :
    b64Decode (b64Encode bs) = bs := by
  induction bs using b64Encode.induct with
  | case1 a b c rest ih =>
    have ha : a < 256 := h a (by simp)
    have hb : b < 256 := h b (by simp)
    have hc : c < 256 := h c (by simp)
    rw [b64Encode, b64Decode]
    rw [if_neg (b64Char_ne_61 _), if_neg (b64Char_ne_61 _)]
    rw [b64CharDec_b64Char _ (by omega), b64CharDec_b64Char _ (by omega),
      b64CharDec_b64Char _ (by omega), b64CharDec_b64Char _ (by omega)]
    rw [ih (fun x hx => h x (by simp [hx]))]
    have e1 : a / 4 * 4 + (a % 4 * 16 + b / 16) / 16 = a := by omega
    have e2 : (a % 4 * 16 + b / 16) % 16 * 16 + (b % 16 * 4 + c / 64) / 4 = b := by omega
    have e3 : (b % 16 * 4 + c / 64) % 4 * 64 + c % 64 = c := by omega
    rw [e1, e2, e3]
  | case2 a b =>
    have ha : a < 256 := h a (by simp)
    have hb : b < 256 := h b (by simp)
    rw [b64Encode, b64Decode]
    rw [if_neg (b64Char_ne_61 _), if_pos rfl]
    rw [b64CharDec_b64Char _ (by omega), b64CharDec_b64Char _ (by omega),
      b64CharDec_b64Char _ (by omega)]
    have e1 : a / 4 * 4 + (a % 4 * 16 + b / 16) / 16 = a := by omega
    have e2 : (a % 4 * 16 + b / 16) % 16 * 16 + b % 16 * 4 / 4 = b := by omega
    rw [e1, e2]
  | case3 a =>
    have ha : a < 256 := h a (by simp)
    rw [b64Encode, b64Decode]
    rw [if_pos rfl]
    rw [b64CharDec_b64Char _ (by omega), b64CharDec_b64Char _ (by omega)]
    have e1 : a / 4 * 4 + a % 4 * 16 / 16 = a := by omega
    rw [e1]
  | case4 => rfl

theorem mem_b64Encode_ne_10 (bs : Bytes) : ∀ x ∈ b64Encode bs, x ≠ 10 := by
  induction bs using b64Encode.induct with
  | case1 a b c rest ih =>
    intro x hx
    rw [b64Encode] at hx
    simp only [List.mem_cons] at hx
    rcases hx with rfl | rfl | rfl | rfl | hx
    · exact b64Char_ne_10 _
    · exact b64Char_ne_10 _
    · exact b64Char_ne_10 _
    · exact b64Char_ne_10 _
    · exact ih x hx
  | case2 a b =>
    intro x hx
    rw [b64Encode] at hx
    simp only [List.mem_cons, List.not_mem_nil, or_false] at hx
    rcases hx with rfl | rfl | rfl | rfl
    · exact b64Char_ne_10 _
    · exact b64Char_ne_10 _
    · exact b64Char_ne_10 _
    · omega
  | case3 a =>
    intro x hx
    rw [b64Encode] at hx
    simp only [List.mem_cons, List.not_mem_nil, or_false] at hx
    rcases hx with rfl | rfl | rfl | rfl
    · exact b64Char_ne_10 _
    · exact b64Char_ne_10 _
    · omega
    · omega
  | case4 => intro x hx; simp [b64Encode] at hx

theorem splitLines_of_no_newline (l : Bytes) (h : 10 ∉ l) :
    splitLines l = ([], l) := by
  induction l with
  | nil => rfl
  | cons b rest ih =>
    have hb : b ≠ 10 := fun hb => h (hb ▸ List.mem_cons_self b rest)
    have hr : 10 ∉ rest := fun hr => h (List.mem_cons_of_mem b hr)
    rw [splitLines, if_neg hb, ih hr]

theorem splitLines_line (l : Bytes) (h : 10 ∉ l) :
    splitLines (l ++ [10]) = ([l], []) := by
  induction l with
  | nil => rfl
  | cons b rest ih =>
    have hb : b ≠ 10 := fun hb => h (hb ▸ List.mem_cons_self b rest)
    have hr : 10 ∉ rest := fun hr => h (List.mem_cons_of_mem b hr)
    rw [List.cons_append, splitLines, if_neg hb, ih hr]

theorem splitLines_append (a b : Bytes) :
    splitLines (a ++ b) =
      ((splitLines a).1 ++ (splitLines ((splitLines a).2 ++ b)).1,
       (splitLines ((splitLines a).2 ++ b)).2) := by
  induction a with
  | nil => simp [splitLines]
  | cons x a ih =>
    by_cases hx : x = 10
    · subst hx
      rw [List.cons_append, splitLines, if_pos rfl, splitLines, if_pos rfl, ih]
      simp
    · rw [List.cons_append, splitLines, if_neg hx, splitLines, if_neg hx]
      rcases hsa : splitLines a with ⟨ls, r⟩
      cases ls with
      | nil =>
        simp only [hsa] at ih ⊢
        rw [ih]
        rcases hsr : splitLines (r ++ b) with ⟨ls2, r2⟩
        cases ls2 with
        | nil =>
          simp only [List.nil_append, hsr]
          rw [List.cons_append, splitLines, if_neg hx, hsr]
        | cons l2 t2 =>
          simp only [List.nil_append, hsr]
          rw [List.cons_append, splitLines, if_neg hx, hsr]
      | cons l t =>
        simp only [hsa] at ih ⊢
        rw [ih]
        rcases hsr : splitLines (r ++ b) with ⟨ls2, r2⟩
        simp [hsr]

theorem feedChunk_append (st : List Dict × Bytes) (c1 c2 : Bytes) :
    feedChunk (feedChunk st c1) c2 = feedChunk st (c1 ++ c2) := by
  rcases st with ⟨msgs, buf⟩
  simp only [feedChunk]
  rw [← List.append_assoc buf c1 c2, splitLines_append (buf ++ c1) c2]
  simp [List.filterMap_append]

theorem feedAll_join (chunks : List Bytes) :
    feedAll chunks = feedChunk ([], []) chunks.flatten := by
  have main : ∀ (cs : List Bytes) (st : List Dict × Bytes) (c : Bytes),
      cs.foldl feedChunk (feedChunk st c) = feedChunk st (c ++ cs.flatten) := by
    intro cs
    induction cs with
    | nil => intro st c; simp [List.foldl]
    | cons c2 cs ih =>
      intro st c
      rw [List.foldl_cons, feedChunk_append, ih, List.flatten_cons, List.append_assoc]
  rcases hc : chunks with _ | ⟨c, cs⟩
  · rfl
  · rw [feedAll, List.foldl_cons, main, List.flatten_cons]

theorem no_newline_in_frame (d : Dict) :
    10 ∉ dataMarker ++ b64Encode (pickleDumps d) := by
  intro hmem
  rcases List.mem_append.mp hmem with h | h
  · simp [dataMarker] at h
  · exact mem_b64Encode_ne_10 _ 10 h rfl

theorem splitLines_sendMessage (d : Dict) :
    splitLines (sendMessage d) = ([dataMarker ++ b64Encode (pickleDumps d)], []) := by
  rw [sendMessage]
  exact splitLines_line _ (no_newline_in_frame d)

theorem decodeLine_frame (d : Dict) :
    decodeLine (dataMarker ++ b64Encode (pickleDumps d)) = some d := by
  have hlen : dataMarker.length = 5 := rfl
  rw [decodeLine]
  rw [show (5 : Nat) = dataMarker.length from rfl, List.take_left, List.drop_left]
  rw [if_pos rfl, b64Decode_b64Encode _ (pickleDumps_bytes_lt d), pickleLoads_pickleDumps]

theorem parseNat_error_caught :
    ∀ (bs : Bytes) (e : PyExc), parseNat bs = .error e → caughtByLoad e = true := by
  intro bs
  induction bs with
  | nil =>
    intro e h
    rw [parseNat] at h
    cases h
    rfl
  | cons b rest ih =>
    intro e h
    rcases b with _ | b
    · simp [parseNat] at h
    · rcases b with _ | b
      · rw [parseNat] at h
        rcases hr : parseNat rest with e2 | ⟨n, r⟩ <;> rw [hr] at h <;> simp at h
        subst h
        exact ih _ hr
      · simp [parseNat] at h
        subst h
        rfl

theorem parseEntries_error_caught :
    ∀ (fuel : Nat) (bs : Bytes) (e : PyExc),
      parseEntries fuel bs = .error e → caughtByLoad e = true := by
  intro fuel
  induction fuel with
  | zero =>
    intro bs e h
    cases bs with
    | nil =>
      rw [parseEntries] at h
      cases h
    | cons b bs =>
      rw [parseEntries] at h
      cases h
      rfl
  | succ f ih =>
    intro bs e h
    cases bs with
    | nil =>
      rw [parseEntries] at h
      cases h
    | cons b bs =>
      rw [parseEntries] at h
      rcases h1 : parseNat (b :: bs) with e1 | ⟨k, r1⟩ <;> rw [h1] at h <;> simp at h
      · subst h
        exact parseNat_error_caught _ _ h1
      · rcases h2 : parseNat r1 with e2 | ⟨v, r2⟩ <;> rw [h2] at h <;> simp at h
        · subst h
          exact parseNat_error_caught _ _ h2
        · rcases h3 : parseEntries f r2 with e3 | rest2 <;> rw [h3] at h <;> simp at h
          subst h
          exact ih r2 _ h3

theorem pickleLoads_error_caught (bs : Bytes) :
    ∀ e, pickleLoads bs = .error e → caughtByLoad e = true :=
  fun e h => parseEntries_error_caught bs.length bs e h

/-! ## Claim theorems -/

/-- C1 counterexample: the claim says a deserialization failure in the
compressing variant is handled by resetting the state to the empty
mapping, never raising past `load()`.  On the concrete one-byte file
`[2]`, whose decompression fails (no zstd frame magic), the compressed
load raises `zstd.Error` past the boundary, because the except tuple of
`load()` names only FileNotFoundError, EOFError and UnpicklingError. -/
theorem compressed_load_raises_on_corrupt_file :
    tryLoad compressedDeserialize (some [2]) = .error .zstdError ∧
    caughtByLoad .zstdError = false := by
  constructor <;> rfl

/-- C1 (amended): `DiskObject.load` never raises past its boundary — a
missing file or any pickle deserialization failure silently resets the
state to the empty mapping — and `CompressedDiskObject.load` does the
same on a missing file, but a decompression failure raises `zstd.Error`
past `load()` because that error is not in the caught exception tuple. -/
theorem load_error_containment :
    ∀ (bs : Bytes) (e : PyExc),
      tryLoad pickleLoads none = .ok []
    ∧ tryLoad compressedDeserialize none = .ok []
    ∧ (pickleLoads bs = .error e → tryLoad pickleLoads (some bs) = .ok [])
    ∧ (∃ d, tryLoad pickleLoads (some bs) = .ok d)
    ∧ (zstdDecompress bs = .error .zstdError →
        tryLoad compressedDeserialize (some bs) = .error .zstdError) := by
  intro bs e
  refine ⟨rfl, rfl, ?_, ?_, ?_⟩
  · intro h
    have hc := pickleLoads_error_caught bs e h
    rw [tryLoad, h]
    simp [hc]
  · rcases h : pickleLoads bs with e1 | d
    · have hc := pickleLoads_error_caught bs e1 h
      exact ⟨[], by rw [tryLoad, h]; simp [hc]⟩
    · exact ⟨d, by rw [tryLoad, h]⟩
  · intro h
    have hz : compressedDeserialize bs = .error .zstdError := by
      rw [compressedDeserialize, h]
    rw [tryLoad, hz]
    rfl

/-- C1 witness: at the concrete corrupt byte string `[2]` the plain
loader resets to the empty mapping while the compressed loader raises. -/
theorem load_error_containment_witness :
    tryLoad pickleLoads none = .ok []
    ∧ tryLoad compressedDeserialize none = .ok []
    ∧ tryLoad pickleLoads (some [2]) = .ok []
    ∧ (∃ d, tryLoad pickleLoads (some [2]) = .ok d)
    ∧ tryLoad compressedDeserialize (some [2]) = .error .zstdError := by
  have h := load_error_containment [2] .unpicklingError
  exact ⟨h.1, h.2.1, h.2.2.1 rfl, h.2.2.2.1, h.2.2.2.2 rfl⟩

/-- C2 counterexample: the claim says a peer whose send fails is removed
from the peer set.  With the single connected peer `7` whose `sendall`
raises, the broadcast leaves the peer set unchanged at `[7]`: the
failure is swallowed by `_send_data`'s own catch-all handler, so
`_broadcast_data` never classifies the peer as dead. -/
theorem broadcast_keeps_failing_peer :
    sendAll (fun _ => true) 7 = .error .osError ∧
    broadcastData [7] (fun _ => true) none = [7] := by
  constructor <;> rfl

/-- C2 (amended): during a hub broadcast a failing send is caught and
logged inside `_send_data`, so the broadcast loop observes no error at
all: the peer set is left unchanged (the failing peer is not removed —
the dead-client removal in `_broadcast_data` is unreachable), the send
is still attempted to every peer other than the excluded sender, and no
error surfaces to the mutation caller. -/
theorem broadcast_swallows_send_failures :
    ∀ (clients : List Nat) (fails : Nat → Bool) (exclude : Option Nat),
      broadcastData clients fails exclude = clients
    ∧ (broadcastLoop fails exclude clients).2 = []
    ∧ (broadcastLoop fails exclude clients).1 =
        clients.filter (fun c => !(some c == exclude))
    ∧ (∀ p, sendData fails p = .ok ()) := by
  intro clients fails exclude
  have hsend : ∀ p, sendData fails p = .ok () := by
    intro p
    rw [sendData]
    rcases h : sendAll fails p with e | u
    · rfl
    · rfl
  have hloop : ∀ cs : List Nat,
      broadcastLoop fails exclude cs =
        (cs.filter (fun c => !(some c == exclude)), []) := by
    intro cs
    induction cs with
    | nil => rfl
    | cons c rest ih =>
      rw [broadcastLoop, ih]
      by_cases hc : some c = exclude
      · rw [if_pos hc, List.filter_cons]
        simp [hc]
      · rw [if_neg hc, hsend c, List.filter_cons]
        simp [hc]
  refine ⟨?_, by rw [hloop], by rw [hloop], hsend⟩
  rw [broadcastData, hloop]
  simp

/-- C6: for every state and every compression level in the supported
range, decompressing the compressed serialized state returns the
serialized bytes, and `CompressedDiskObject._deserialize` inverts
`CompressedDiskObject._serialize` on states. -/
theorem compression_roundtrip :
    ∀ (d : Dict) (lvl : Nat), 1 ≤ lvl → lvl ≤ 22 →
      zstdDecompress (zstdCompress (pickleDumps d) lvl) = .ok (pickleDumps d)
    ∧ compressedDeserialize (compressedSerialize d lvl) = .ok d := by
  intro d lvl _ _
  have hz : zstdDecompress (zstdCompress (pickleDumps d) lvl) = .ok (pickleDumps d) := by
    rw [zstdCompress, zstdDecompress]
    rw [show (4 : Nat) = zstdMagic.length from rfl, List.take_left, List.drop_left]
    rw [if_pos rfl]
  exact ⟨hz, by rw [compressedSerialize, compressedDeserialize, hz]; simp [pickleLoads_pickleDumps]⟩

/-- C6 witness: the round-trip at the one-binding state and the default
compression level 5 used by `CompressedDiskObject`. -/
theorem compression_roundtrip_witness :
    zstdDecompress (zstdCompress (pickleDumps [(1, 2)]) 5) = .ok (pickleDumps [(1, 2)])
    ∧ compressedDeserialize (compressedSerialize [(1, 2)] 5) = .ok [(1, 2)] :=
  compression_roundtrip [(1, 2)] 5 (by decide) (by decide)

/-- C9: constructing a `DiskObject` or `CompressedDiskObject` with a
non-empty initial value while the backing file is missing yields the
empty mapping: the constructor's unconditional `load()` resets the state
and discards the supplied initial value. -/
theorem initial_value_discarded_on_missing_file :
    ∀ d0 : Dict, d0 ≠ [] →
      diskObjectNew none (some d0) = .ok { data := [], file := none, saves := 0 }
    ∧ compressedObjectNew none (some d0) =
        .ok { data := [], file := none, saves := 0 } := by
  intro d0 _
  exact ⟨rfl, rfl⟩

/-- C9 witness: the non-empty initial value with the single binding
`(1, 2)` is discarded by construction over a missing file. -/
theorem initial_value_discarded_on_missing_file_witness :
    diskObjectNew none (some [(1, 2)]) = .ok { data := [], file := none, saves := 0 }
    ∧ compressedObjectNew none (some [(1, 2)]) =
        .ok { data := [], file := none, saves := 0 } :=
  initial_value_discarded_on_missing_file [(1, 2)] (by decide)

theorem tryLoad_objSave (o : DObj) :
    tryLoad pickleLoads (objSave o).file = .ok (objSave o).data := by
  rw [objSave, tryLoad]
  simp [pickleLoads_pickleDumps]

theorem runOp_consistent (o : DObj) (op : Op) (o2 : DObj)
    (h : runOp o op = .ok o2) :
    tryLoad pickleLoads o2.file = .ok o2.data := by
  cases op with
  | set k v =>
    rw [runOp] at h
    cases h
    exact tryLoad_objSave _
  | del k =>
    rw [runOp, objDelItem] at h
    by_cases hc : dictContains o.data k
    · rw [if_pos hc] at h
      cases h
      exact tryLoad_objSave _
    · rw [if_neg hc] at h
      cases h
  | update m =>
    rw [runOp] at h
    cases h
    exact tryLoad_objSave _
  | clear =>
    rw [runOp] at h
    cases h
    exact tryLoad_objSave _
  | pop k dflt =>
    rcases hg : dictGet o.data k with _ | v
    · rcases dflt with _ | w
      · simp only [runOp, objPop, hg] at h
        simp at h
      · simp only [runOp, objPop, hg] at h
        simp at h
        rw [← h]
        exact tryLoad_objSave _
    · simp only [runOp, objPop, hg] at h
      simp at h
      rw [← h]
      exact tryLoad_objSave _

/-- C3: starting from a freshly constructed `DiskObject` on any file, a
successful sequence of set/delete/update/clear/pop operations leaves the
backing file in a state from which a second fresh construction on the
same path reproduces exactly the final in-memory state (persist/load
round-trip law; no crash mid-write is modelled by the run succeeding). -/
theorem persist_load_roundtrip :
    ∀ (f0 : Option Bytes) (o0 : DObj) (dflt : Option Dict) (ops : List Op) (o1 : DObj),
      diskObjectNew f0 none = .ok o0 →
      runOps o0 ops = .ok o1 →
      diskObjectNew o1.file dflt =
        .ok { data := o1.data, file := o1.file, saves := 0 } := by
  intro f0 o0 dflt ops o1 h0 hrun
  have hinv0 : tryLoad pickleLoads o0.file = .ok o0.data := by
    rw [diskObjectNew] at h0
    rcases h : tryLoad pickleLoads f0 with e | d <;> rw [h] at h0 <;> simp at h0
    rw [← h0]
    exact h
  have main : ∀ (ops : List Op) (o o1 : DObj),
      tryLoad pickleLoads o.file = .ok o.data →
      runOps o ops = .ok o1 →
      tryLoad pickleLoads o1.file = .ok o1.data := by
    intro ops
    induction ops with
    | nil =>
      intro o o1 hi h
      rw [runOps] at h
      cases h
      exact hi
    | cons op rest ih =>
      intro o o1 hi h
      rw [runOps] at h
      rcases h2 : runOp o op with e | o2 <;> rw [h2] at h
      · cases h
      · exact ih o2 o1 (runOp_consistent o op o2 h2) h
  have hfinal := main ops o0 o1 hinv0 hrun
  rw [diskObjectNew, hfinal]

/-- C3 witness: a concrete run (set a key, update a batch, pop a key)
from a missing file; reloading reproduces the final state. -/
theorem persist_load_roundtrip_witness :
    diskObjectNew (some [1, 0, 1, 1, 0]) (some [(9, 9)]) =
      .ok { data := [(1, 2)], file := some [1, 0, 1, 1, 0], saves := 0 } := by
  have hrun : runOps { data := [], file := none, saves := 0 }
      [Op.update [(3, 4)], Op.set 1 2, Op.pop 3 none] =
      .ok { data := [(1, 2)], file := some [1, 0, 1, 1, 0], saves := 3 } := by rfl
  have h := persist_load_roundtrip none { data := [], file := none, saves := 0 }
    (some [(9, 9)]) [Op.update [(3, 4)], Op.set 1 2, Op.pop 3 none]
    { data := [(1, 2)], file := some [1, 0, 1, 1, 0], saves := 3 } rfl hrun
  exact h

/-- C4: every successful mutating operation (set, delete, update, clear,
pop) makes exactly one synchronous persist (save) call before returning
— update persists once for the whole batch — while the read-only
operations (get, contains, length, iterate) make no persist call and
leave the object unchanged. -/
theorem mutation_persists_exactly_once :
    ∀ (o : DObj) (k v : Nat) (m : Dict) (dflt : Option Nat),
      (objSetItem o k v).saves = o.saves + 1
    ∧ ((objDelItem o k).1 = .ok () → (objDelItem o k).2.saves = o.saves + 1)
    ∧ (objUpdate o m).saves = o.saves + 1
    ∧ (objClear o).saves = o.saves + 1
    ∧ (∀ x, (objPop o k dflt).1 = .ok x → (objPop o k dflt).2.saves = o.saves + 1)
    ∧ (objGetOp o k).2 = o
    ∧ (objContainsOp o k).2 = o
    ∧ (objLenOp o).2 = o
    ∧ (objIterOp o).2 = o := by
  intro o k v m dflt
  refine ⟨rfl, ?_, rfl, rfl, ?_, rfl, rfl, rfl, rfl⟩
  · intro h
    rw [objDelItem] at h ⊢
    by_cases hc : dictContains o.data k
    · rw [if_pos hc]
      rfl
    · rw [if_neg hc] at h
      cases h
  · intro x h
    rcases hg : dictGet o.data k with _ | w
    · rcases dflt with _ | w2
      · simp only [objPop, hg] at h
        cases h
      · simp only [objPop, hg]
        rfl
    · simp only [objPop, hg]
      rfl

/-- C4 witness: over the one-binding sample object, each mutating
operation persists exactly once and each read-only operation leaves the
object untouched. -/
theorem mutation_persists_exactly_once_witness :
    (objSetItem sampleObj 1 3).saves = sampleObj.saves + 1
    ∧ (objDelItem sampleObj 1).2.saves = sampleObj.saves + 1
    ∧ (objUpdate sampleObj [(4, 5)]).saves = sampleObj.saves + 1
    ∧ (objClear sampleObj).saves = sampleObj.saves + 1
    ∧ (objPop sampleObj 1 (some 9)).2.saves = sampleObj.saves + 1
    ∧ (objGetOp sampleObj 1).2 = sampleObj
    ∧ (objContainsOp sampleObj 1).2 = sampleObj
    ∧ (objLenOp sampleObj).2 = sampleObj
    ∧ (objIterOp sampleObj).2 = sampleObj := by
  have h := mutation_persists_exactly_once sampleObj 1 3 [(4, 5)] (some 9)
  exact ⟨h.1, h.2.1 rfl, h.2.2.1, h.2.2.2.1, h.2.2.2.2.1 2 rfl,
    h.2.2.2.2.2.1, h.2.2.2.2.2.2.1, h.2.2.2.2.2.2.2.1, h.2.2.2.2.2.2.2.2⟩

/-- C5: the wire message produced for a state is exactly the bytes
`DATA:` followed by the base64 encoding of the serialized state followed
by a newline, and the receive side (line splitter, marker strip, base64
decode, deserialize) recovers exactly that state from the message. -/
theorem wire_framing_roundtrip :
    ∀ d : Dict,
      sendMessage d = dataMarker ++ b64Encode (pickleDumps d) ++ [10]
    ∧ (splitLines (sendMessage d)).1.filterMap decodeLine = [d] := by
  intro d
  refine ⟨rfl, ?_⟩
  rw [splitLines_sendMessage]
  simp [decodeLine_frame]

/-- C7: on a key absent from the state, `delete` raises KeyError
(KeyNotFound) and `pop` with a supplied default returns that default
without raising. -/
theorem absent_key_delete_raises_pop_defaults :
    ∀ (o : DObj) (k v : Nat),
      dictContains o.data k = false →
      (objDelItem o k).1 = .error .keyError
    ∧ (objPop o k (some v)).1 = .ok v := by
  intro o k v h
  have hg : dictGet o.data k = none := by
    rw [dictContains] at h
    exact Option.not_isSome_iff_eq_none.mp (by simp [h])
  constructor
  · rw [objDelItem, if_neg (by simp [h])]
  · simp only [objPop, hg]

/-- C7 witness: key 5 is absent from the sample object; delete raises
KeyError and pop returns the supplied default 9. -/
theorem absent_key_delete_raises_pop_defaults_witness :
    (objDelItem sampleObj 5).1 = .error .keyError
    ∧ (objPop sampleObj 5 (some 9)).1 = .ok 9 :=
  absent_key_delete_raises_pop_defaults sampleObj 5 9 rfl

/-- C8: for every state and every way of splitting its framed wire
message into successive reads (including splits mid-base64), the
buffering line reader decodes exactly that one state once the newline
arrives, with nothing left in the buffer — the same outcome as a single
full read. -/
theorem partial_read_reconstruction :
    ∀ (d : Dict) (chunks : List Bytes),
      chunks.flatten = sendMessage d →
      feedAll chunks = ([d], []) := by
  intro d chunks hjoin
  rw [feedAll_join, hjoin, feedChunk]
  simp only [List.nil_append]
  rw [splitLines_sendMessage]
  simp [decodeLine_frame]

/-- C8 witness: the message for the one-binding state split into two
reads, the first ending mid-base64, still decodes to that state. -/
theorem partial_read_reconstruction_witness :
    [[68, 65, 84, 65, 58, 65, 81], [65, 66, 65, 81, 65, 61, 10]].flatten =
      sendMessage [(1, 2)]
    ∧ feedAll [[68, 65, 84, 65, 58, 65, 81], [65, 66, 65, 81, 65, 61, 10]] =
        ([[(1, 2)]], []) :=
  ⟨rfl, partial_read_reconstruction [(1, 2)]
    [[68, 65, 84, 65, 58, 65, 81], [65, 66, 65, 81, 65, 61, 10]] rfl⟩

/-- C10: a failing `delete` on an absent key, or a failing `pop` without
a default on an absent key, raises before any persist call: the returned
object is exactly the original — in-memory state, backing file and
persist count all unchanged. -/
theorem failed_mutation_is_atomic :
    ∀ (o : DObj) (k : Nat),
      dictContains o.data k = false →
      objDelItem o k = (.error .keyError, o)
    ∧ objPop o k none = (.error .keyError, o) := by
  intro o k h
  have hg : dictGet o.data k = none := by
    rw [dictContains] at h
    exact Option.not_isSome_iff_eq_none.mp (by simp [h])
  constructor
  · rw [objDelItem, if_neg (by simp [h])]
  · simp only [objPop, hg]

/-- C10 witness: deleting or popping the absent key 5 from the sample
object raises KeyError and leaves the object exactly as it was. -/
theorem failed_mutation_is_atomic_witness :
    objDelItem sampleObj 5 = (.error .keyError, sampleObj)
    ∧ objPop sampleObj 5 none = (.error .keyError, sampleObj) :=
  failed_mutation_is_atomic sampleObj 5 rfl
